import Mathlib

/-!
# Verification of the hanuman network-serving runtime

A shallow embedding, in Lean 4, of the parts of the hanuman repository
(`src/application.c`, `src/http2.c`, `src/http_server.c`, `src/http_route.c`)
that the specification's claims are about.  Every definition mirrors the
corresponding C function; C strings are `List Char` (NUL-free byte strings),
machine integers are `Nat`/`Int` with explicit `% 256` (etc.) where the C code
masks or casts, and stateful code is modelled by explicit state passing.
-/

set_option autoImplicit false

namespace Hanuman

/-! ## HTTP/2 frame header (src/http2.c)

`http2_send_frame` serialises a 9-byte frame header before the payload;
`http2_parse_frame_header` reads one back.  Bytes are modelled as `Nat`
values `< 256`; the C bit operations `(x >> k) & 0xFF` and `(x >> k) & 0x7F`
become `x / 2^k % 256` and `x / 2^k % 128`. -/

/-- Parsed frame header, mirroring `HTTP2_FRAME_HEADER` from `http2.h`:
24-bit length, 8-bit type, 8-bit flags, 31-bit stream id. -/
structure HTTP2_FRAME_HEADER where
  length : Nat
  type : Nat
  flags : Nat
  stream_id : Nat
deriving DecidableEq, Repr

/-- The 9 header bytes written by `http2_send_frame` (http2.c lines 155-172):
3 length bytes (big-endian), type, flags, then 4 stream-id bytes with the
reserved bit masked off (`(stream_id >> 24) & 0x7F`). -/
def http2_send_frame_header_bytes (type flags stream_id length : Nat) : List Nat :=
  [ length / 65536 % 256, length / 256 % 256, length % 256
  , type % 256
  , flags % 256
  , stream_id / 16777216 % 128
  , stream_id / 65536 % 256
  , stream_id / 256 % 256
  , stream_id % 256 ]

/-- `http2_parse_frame_header` (http2.c lines 130-148): reads 9 bytes; the
length is `(data[0] << 16) | (data[1] << 8) | data[2]`, the stream id drops
the reserved bit via `data[5] & 0x7F`.  The C function dereferences a 9-byte
buffer; on fewer than 9 bytes the model returns `none`. -/
def http2_parse_frame_header (data : List Nat) : Option HTTP2_FRAME_HEADER :=
  match data with
  | d0 :: d1 :: d2 :: d3 :: d4 :: d5 :: d6 :: d7 :: d8 :: _ =>
      some { length := d0 * 65536 + d1 * 256 + d2
           , type := d3
           , flags := d4
           , stream_id := (d5 % 128) * 16777216 + d6 * 65536 + d7 * 256 + d8 }
  | _ => none

/-- C10: for every frame with payload length < 2^24 and stream id < 2^31
(and byte-sized type and flags), parsing the 9-byte header emitted by the
frame sender returns exactly the (length, type, flags, stream-id) quadruple
that was encoded. -/
theorem frame_header_roundtrip (len ty fl sid : Nat)
    (hlen : len < 2 ^ 24) (hty : ty < 256) (hfl : fl < 256) (hsid : sid < 2 ^ 31) :
    http2_parse_frame_header (http2_send_frame_header_bytes ty fl sid len) =
      some ⟨len, ty, fl, sid⟩ := by
  simp only [http2_send_frame_header_bytes, http2_parse_frame_header,
    Option.some.injEq, HTTP2_FRAME_HEADER.mk.injEq]
  refine ⟨?_, ?_, ?_, ?_⟩ <;> omega

/-- Witness: the round trip at a concrete frame
(length 36, type SETTINGS=4, flags 0, stream 2). -/
theorem frame_header_roundtrip_witness :
    http2_parse_frame_header (http2_send_frame_header_bytes 4 0 2 36) =
      some ⟨36, 4, 0, 2⟩ :=
  frame_header_roundtrip 36 4 0 2 (by decide) (by decide) (by decide) (by decide)

/-! ## HTTP/2 SETTINGS and the preface handshake (src/http2.c)

`http2_handle_connection` is the whole of the server's HTTP/2 path: it peeks
for the 24-byte preface, consumes it, sends one SETTINGS frame and returns.
Sending is modelled by returning the list of frames written to the socket. -/

/-- A frame as put on the wire by `http2_send_frame`: type, flags, stream id
and payload bytes. -/
structure Frame where
  type : Nat
  flags : Nat
  stream_id : Nat
  payload : List Nat
deriving DecidableEq, Repr

/-- `HTTP2_FRAME_SETTINGS` (http2.h). -/
def HTTP2_FRAME_SETTINGS : Nat := 4

/-- `HTTP2_FLAG_ACK` (http2.h). -/
def HTTP2_FLAG_ACK : Nat := 1

/-- The `default_settings[7]` table from http2.c lines 15-23 (index 0 is the
reserved slot). -/
def default_settings : List Nat := [0, 4096, 1, 100, 65535, 16384, 8192]

/-- The slice of `HTTP2_CONNECTION` state that the handshake path touches
(`http2_connection_create`, http2.c lines 25-51): the local settings table
and the preface flags. -/
structure HTTP2_CONNECTION where
  is_http2 : Bool
  preface_received : Bool
  local_settings : List Nat
deriving DecidableEq, Repr

/-- `http2_connection_create` (http2.c lines 25-51): both settings tables
start as `default_settings`, preface flags cleared. -/
def http2_connection_create : HTTP2_CONNECTION :=
  { is_http2 := false, preface_received := false, local_settings := default_settings }

/-- One 6-byte settings entry as written by `http2_send_settings`
(http2.c lines 202-248): a zero byte, the identifier byte, then the 32-bit
value big-endian. -/
def settings_entry (id value : Nat) : List Nat :=
  [0, id, value / 16777216 % 256, value / 65536 % 256, value / 256 % 256, value % 256]

/-- `http2_send_settings` (http2.c lines 189-251): with `ack` an empty
SETTINGS frame carrying the ACK flag; otherwise a SETTINGS frame whose 36-byte
payload lists `local_settings[1]`..`local_settings[6]` under identifiers 1-6. -/
def http2_send_settings (conn : HTTP2_CONNECTION) (ack : Bool) : Frame :=
  if ack then
    { type := HTTP2_FRAME_SETTINGS, flags := HTTP2_FLAG_ACK, stream_id := 0, payload := [] }
  else
    { type := HTTP2_FRAME_SETTINGS, flags := 0, stream_id := 0
    , payload :=
        settings_entry 1 (conn.local_settings.getD 1 0) ++
        settings_entry 2 (conn.local_settings.getD 2 0) ++
        settings_entry 3 (conn.local_settings.getD 3 0) ++
        settings_entry 4 (conn.local_settings.getD 4 0) ++
        settings_entry 5 (conn.local_settings.getD 5 0) ++
        settings_entry 6 (conn.local_settings.getD 6 0) }

/-- The 24 preface bytes `"PRI * HTTP/2.0\r\n\r\nSM\r\n\r\n"` (http2.h). -/
def HTTP2_PREFACE : List Nat :=
  [80, 82, 73, 32, 42, 32, 72, 84, 84, 80, 47, 50, 46, 48, 13, 10, 13, 10, 83, 77, 13, 10, 13, 10]

/-- `http2_handle_connection` (http2.c lines 372-400) over the bytes available
on the socket: if the first 24 bytes equal the preface it consumes them, marks
the connection as HTTP/2, sends the (non-ACK) SETTINGS frame and returns 0.
Otherwise it sends nothing and returns -1.  The function never reads the
peer's SETTINGS frame and never sends a SETTINGS ACK.  Result: return value,
updated connection, frames written, bytes left unconsumed on the socket. -/
def http2_handle_connection (conn : HTTP2_CONNECTION) (input : List Nat) :
    Int × HTTP2_CONNECTION × List Frame × List Nat :=
  if 24 ≤ input.length ∧ input.take 24 = HTTP2_PREFACE then
    let conn' := { conn with is_http2 := true, preface_received := true }
    (0, conn', [http2_send_settings conn' false], input.drop 24)
  else
    (-1, conn, [], input)

/-- An empty SETTINGS frame from the peer (9 header bytes, no payload), used
as the concrete input that C2 expects the server to consume and acknowledge. -/
def peer_empty_settings_bytes : List Nat := [0, 0, 0, 4, 0, 0, 0, 0, 0]

/-- C2 counterexample: feed the preface followed by the peer's (empty)
SETTINGS frame to the connection handler.  The handler never sends a frame
carrying the ACK flag, and it leaves the peer's SETTINGS bytes unread,
refuting the claimed read-peer-settings-then-ACK exchange. -/
theorem http2_no_settings_ack :
    (∀ f ∈ (http2_handle_connection http2_connection_create
        (HTTP2_PREFACE ++ peer_empty_settings_bytes)).2.2.1,
      ¬(f.type = HTTP2_FRAME_SETTINGS ∧ f.flags = HTTP2_FLAG_ACK)) ∧
    (http2_handle_connection http2_connection_create
        (HTTP2_PREFACE ++ peer_empty_settings_bytes)).2.2.2 =
      peer_empty_settings_bytes := by
  decide

/-- C2 (amended): upon detecting the 24-byte preface the server sends exactly
one frame: a SETTINGS frame (no flags) whose payload carries precisely the six
defaults HEADER_TABLE_SIZE=4096, ENABLE_PUSH=1, MAX_CONCURRENT_STREAMS=100,
INITIAL_WINDOW_SIZE=65535, MAX_FRAME_SIZE=16384, MAX_HEADER_LIST_SIZE=8192;
it does not read the peer's SETTINGS frame and sends no SETTINGS ACK (the
reactor closes the connection right after, http_server.c line 600). -/
theorem http2_handshake_sends_defaults (input : List Nat)
    (h : input.take 24 = HTTP2_PREFACE) (hlen : 24 ≤ input.length) :
    http2_handle_connection http2_connection_create input =
      (0,
       { is_http2 := true, preface_received := true, local_settings := default_settings },
       [{ type := HTTP2_FRAME_SETTINGS, flags := 0, stream_id := 0
        , payload :=
            settings_entry 1 4096 ++ settings_entry 2 1 ++ settings_entry 3 100 ++
            settings_entry 4 65535 ++ settings_entry 5 16384 ++ settings_entry 6 8192 }],
       input.drop 24) := by
  simp [http2_handle_connection, hlen, h, http2_connection_create, http2_send_settings,
    default_settings]

/-- Witness for the amended C2 at the concrete preface-plus-peer-SETTINGS
input. -/
theorem http2_handshake_sends_defaults_witness :
    http2_handle_connection http2_connection_create
        (HTTP2_PREFACE ++ peer_empty_settings_bytes) =
      (0,
       { is_http2 := true, preface_received := true, local_settings := default_settings },
       [{ type := HTTP2_FRAME_SETTINGS, flags := 0, stream_id := 0
        , payload :=
            settings_entry 1 4096 ++ settings_entry 2 1 ++ settings_entry 3 100 ++
            settings_entry 4 65535 ++ settings_entry 5 16384 ++ settings_entry 6 8192 }],
       peer_empty_settings_bytes) := by
  have := http2_handshake_sends_defaults (HTTP2_PREFACE ++ peer_empty_settings_bytes)
    (by decide) (by decide)
  simpa using this

/-! ## Supervisor entry point `application_run` (src/application.c lines 331-411)

The observable behaviour of `application_run` is the ordered sequence of
start/stop calls it makes on the HTTP server and the Kafka client.  The
configuration records which of the two handles are bound and whether each
start call succeeds; `sig` tells whether the main loop exits because of
SIGINT/SIGTERM (in which case `application_signal_handler`, application.c
lines 302-314, calls `http_server_stop` before the loop returns). -/

/-- Calls `application_run` makes, in order, on the two subsystems. -/
inductive AppEvent where
  | httpStart
  | kafkaStart
  | httpRun
  | kafkaIdle
  | httpStop
  | kafkaStop
deriving DecidableEq, Repr

/-- `FRAMEWORK_SUCCESS` (framework.h). -/
def FRAMEWORK_SUCCESS : Int := 0
/-- `FRAMEWORK_ERROR_INVALID` (framework.h). -/
def FRAMEWORK_ERROR_INVALID : Int := -2
/-- `FRAMEWORK_ERROR_STATE` (framework.h). -/
def FRAMEWORK_ERROR_STATE : Int := -6

/-- Supervisor configuration: which handles `application_set_http_server` /
`application_set_kafka_client` bound, and whether each start succeeds. -/
structure AppCfg where
  has_http : Bool
  has_kafka : Bool
  http_start_ok : Bool
  kafka_start_ok : Bool
deriving DecidableEq, Repr

/-- `application_run` (application.c lines 331-411) as the pair
(event trace, return value), mirroring the source order:
null-config check; start the HTTP server first (return on failure); then
start the Kafka client (stopping the HTTP server and returning on failure);
run the main loop (`http_server_run` when the server is bound, else the
1-second sleep loop); on a signal the handler stops the HTTP server, the
loop exits; cleanup then stops the Kafka client first and the HTTP server
second. -/
def application_run (cfg : AppCfg) (sig : Bool) : List AppEvent × Int :=
  if ¬cfg.has_http ∧ ¬cfg.has_kafka then ([], FRAMEWORK_ERROR_INVALID)
  else if cfg.has_http ∧ ¬cfg.http_start_ok then ([.httpStart], FRAMEWORK_ERROR_STATE)
  else if cfg.has_kafka ∧ ¬cfg.kafka_start_ok then
    ((if cfg.has_http then [AppEvent.httpStart] else []) ++ [.kafkaStart] ++
       (if cfg.has_http then [AppEvent.httpStop] else []), FRAMEWORK_ERROR_STATE)
  else
    ((if cfg.has_http then [AppEvent.httpStart] else []) ++
     (if cfg.has_kafka then [AppEvent.kafkaStart] else []) ++
     (if cfg.has_http then [AppEvent.httpRun] else [AppEvent.kafkaIdle]) ++
     (if sig ∧ cfg.has_http then [AppEvent.httpStop] else []) ++
     (if cfg.has_kafka then [AppEvent.kafkaStop] else []) ++
     (if cfg.has_http then [AppEvent.httpStop] else []), FRAMEWORK_SUCCESS)

/-- C1 counterexample: with both subsystems bound and both starts succeeding,
`application_run` starts the HTTP server strictly before the Kafka client
(indices 0 and 1 of the trace), refuting the claimed Kafka-then-HTTP start
order; moreover, on a non-signal exit of the loop the Kafka client is stopped
strictly before the HTTP server, refuting the claimed HTTP-then-Kafka stop
order on that path. -/
theorem application_run_order_counterexample :
    let t := (application_run ⟨true, true, true, true⟩ false).1
    t = [.httpStart, .kafkaStart, .httpRun, .kafkaStop, .httpStop] ∧
    ¬ List.indexOf AppEvent.kafkaStart t < List.indexOf AppEvent.httpStart t ∧
    ¬ List.indexOf AppEvent.httpStop t < List.indexOf AppEvent.kafkaStop t := by
  decide

/-- C1 (amended): when both an HTTP server and a Kafka client are bound and
both starts succeed, `application_run` starts the HTTP server first and the
Kafka client second; on a SIGINT/SIGTERM shutdown the HTTP server is stopped
(by the signal handler) before the Kafka client is stopped, after which the
cleanup path issues a final, redundant HTTP-server stop; on a non-signal loop
exit the cleanup stops the Kafka client before the HTTP server. -/
theorem application_run_order (cfg : AppCfg) (sig : Bool)
    (hh : cfg.has_http = true) (hk : cfg.has_kafka = true)
    (hho : cfg.http_start_ok = true) (hko : cfg.kafka_start_ok = true) :
    application_run cfg sig =
      (if sig then
        ([.httpStart, .kafkaStart, .httpRun, .httpStop, .kafkaStop, .httpStop],
          FRAMEWORK_SUCCESS)
       else
        ([.httpStart, .kafkaStart, .httpRun, .kafkaStop, .httpStop], FRAMEWORK_SUCCESS)) := by
  cases sig <;> simp [application_run, hh, hk, hho, hko]

/-- Witness for the amended C1 at the concrete both-bound configuration with
a signal-driven shutdown. -/
theorem application_run_order_witness :
    application_run ⟨true, true, true, true⟩ true =
      ([.httpStart, .kafkaStart, .httpRun, .httpStop, .kafkaStop, .httpStop],
        FRAMEWORK_SUCCESS) := by
  have := application_run_order ⟨true, true, true, true⟩ true rfl rfl rfl rfl
  simpa using this

/-! ## Query-string percent-decoder `url_decode` (src/http_server.c lines 297-313)

The decoder walks the source C string; on `'%'` followed by two further
non-NUL characters it converts those two characters with `strtol(hex, NULL,
16)` and stores the cast-to-`char` result, on `'+'` it stores a space, and
otherwise it copies the character.  Output stops when the destination buffer
(of `dst_size` bytes, one reserved for the terminator) is full.  Bytes are
`Nat` values; a C string is a list of non-zero bytes. -/

/-- Hexadecimal digit test, as `strtol` base 16 accepts: `0-9a-fA-F`. -/
def isHexDigitByte (b : Nat) : Bool :=
  (48 ≤ b ∧ b ≤ 57) ∨ (97 ≤ b ∧ b ≤ 102) ∨ (65 ≤ b ∧ b ≤ 70)

/-- Value of a hexadecimal digit byte. -/
def hexVal (b : Nat) : Nat :=
  if 48 ≤ b ∧ b ≤ 57 then b - 48
  else if 97 ≤ b ∧ b ≤ 102 then b - 87
  else if 65 ≤ b ∧ b ≤ 70 then b - 55
  else 0

/-- `isspace` bytes skipped by `strtol`. -/
def isSpaceByte (b : Nat) : Bool := b = 32 ∨ (9 ≤ b ∧ b ≤ 13)

/-- Greedy base-16 digit run of `strtol`: accumulate hex digits, stop at the
first non-digit. -/
def strtol16Digits : List Nat → Nat → Nat
  | [], acc => acc
  | b :: bs, acc =>
      if isHexDigitByte b then strtol16Digits bs (acc * 16 + hexVal b) else acc

/-- After the optional whitespace and sign, `strtol(_, _, 16)` skips an
optional `0x`/`0X` prefix when a hex digit follows, then reads digits
(no digits at all gives 0). -/
def strtol16Body (bs : List Nat) : Nat :=
  match bs with
  | 48 :: x :: rest =>
      if (x = 120 ∨ x = 88) ∧ isHexDigitByte (rest.headD 0) then
        strtol16Digits rest 0
      else strtol16Digits (48 :: x :: rest) 0
  | _ => strtol16Digits bs 0

/-- `strtol(s, NULL, 16)` on a short string: skip whitespace, read an
optional sign, then the base-16 body.  (The two-character strings passed by
`url_decode` never overflow `long`.) -/
def strtol16 : List Nat → Int
  | [] => 0
  | b :: bs =>
      if isSpaceByte b then strtol16 bs
      else if b = 43 then (strtol16Body bs : Int)
      else if b = 45 then -(strtol16Body bs : Int)
      else (strtol16Body (b :: bs) : Int)

/-- The `(char)` cast of the `strtol` result, read back as a byte: the low
8 bits in two's complement. -/
def byteOfInt (v : Int) : Nat := (v % 256).toNat

/-- The loop of `url_decode` (http_server.c lines 299-311), recursing on the
remaining source bytes with `j` the number of bytes already written.  The
guard `j < dst_size - 1` keeps one byte for the NUL terminator; `dst_size = 0`
would underflow in C (callers always pass at least 128) and is modelled as an
empty output. -/
def url_decode_go (dst_size : Nat) : Nat → List Nat → List Nat
  | _, [] => []
  | j, b :: rest =>
      if j + 1 < dst_size then
        if b = 37 then
          match rest with
          | b1 :: b2 :: rest2 =>
              if b1 ≠ 0 ∧ b2 ≠ 0 then
                byteOfInt (strtol16 [b1, b2]) :: url_decode_go dst_size (j + 1) rest2
              else b :: url_decode_go dst_size (j + 1) (b1 :: b2 :: rest2)
          | [b1] => b :: url_decode_go dst_size (j + 1) [b1]
          | [] => b :: url_decode_go dst_size (j + 1) []
        else if b = 43 then 32 :: url_decode_go dst_size (j + 1) rest
        else b :: url_decode_go dst_size (j + 1) rest
      else []
termination_by _ src => src.length
decreasing_by all_goals simp_wf <;> omega

/-- `url_decode` (http_server.c lines 297-313): the bytes written to `dst`
(excluding the final NUL) for source string `src` and destination capacity
`dst_size`. -/
def url_decode (dst_size : Nat) (src : List Nat) : List Nat :=
  url_decode_go dst_size 0 src

/-- C3 counterexample: the unrecognised percent sequence `"%zz"` does not
pass through unchanged — `strtol("zz", NULL, 16)` is 0, so the decoder (with
the callers' 128-byte buffer) emits the single byte 0. -/
theorem url_decode_percent_zz :
    url_decode 128 [37, 122, 122] = [0] ∧ url_decode 128 [37, 122, 122] ≠ [37, 122, 122] := by
  simp [url_decode, url_decode_go, byteOfInt, strtol16, strtol16Body, strtol16Digits,
    isHexDigitByte, isSpaceByte, hexVal]

/-- The decoder of the amended claim, written from its words: `%HH` with two
hexadecimal digits becomes the byte `HH`; any other `'%'` followed by two
non-NUL characters is still consumed and becomes the cast-to-`char`
`strtol` value of those two characters; a `'%'` followed by fewer than two
characters passes through unchanged; `'+'` becomes a space; everything else
is copied. -/
def urlDecodeSpec : List Nat → List Nat
  | [] => []
  | 37 :: b1 :: b2 :: rest =>
      if isHexDigitByte b1 ∧ isHexDigitByte b2 then
        (16 * hexVal b1 + hexVal b2) :: urlDecodeSpec rest
      else if b1 ≠ 0 ∧ b2 ≠ 0 then
        byteOfInt (strtol16 [b1, b2]) :: urlDecodeSpec rest
      else 37 :: urlDecodeSpec (b1 :: b2 :: rest)
  | 43 :: rest => 32 :: urlDecodeSpec rest
  | b :: rest => b :: urlDecodeSpec rest

/-! ### Supporting lemmas and the amended C3 theorem -/

/-- A hexadecimal digit byte is never the NUL byte. -/
theorem isHexDigitByte_ne_zero (b : Nat) (h : isHexDigitByte b = true) : b ≠ 0 := by
  simp [isHexDigitByte] at h
  omega

theorem hexVal_lt (b : Nat) (h : isHexDigitByte b = true) : hexVal b < 16 := by
  simp [isHexDigitByte] at h
  unfold hexVal
  split_ifs <;> omega

theorem strtol16Body_two (b1 b2 : Nat) (h2 : isHexDigitByte b2 = true) :
    strtol16Body [b1, b2] = strtol16Digits [b1, b2] 0 := by
  rcases eq_or_ne b1 48 with rfl | hne
  · have hb2 : ¬(b2 = 120 ∨ b2 = 88) := by
      simp [isHexDigitByte] at h2
      omega
    simp [strtol16Body, hb2]
  · rw [strtol16Body]
    simp [hne]

theorem strtol16_hex (b1 b2 : Nat) (h1 : isHexDigitByte b1 = true)
    (h2 : isHexDigitByte b2 = true) :
    strtol16 [b1, b2] = ((16 * hexVal b1 + hexVal b2 : Nat) : Int) := by
  have h1' := h1
  simp [isHexDigitByte] at h1'
  have hs : isSpaceByte b1 = false := by
    simp [isSpaceByte]
    omega
  have h43 : b1 ≠ 43 := by omega
  have h45 : b1 ≠ 45 := by omega
  rw [strtol16]
  simp only [hs, Bool.false_eq_true, if_false, if_neg h43, if_neg h45]
  rw [strtol16Body_two b1 b2 h2]
  simp [strtol16Digits, h1, h2]
  ring

theorem byteOfInt_strtol16_hex (b1 b2 : Nat) (h1 : isHexDigitByte b1 = true)
    (h2 : isHexDigitByte b2 = true) :
    byteOfInt (strtol16 [b1, b2]) = 16 * hexVal b1 + hexVal b2 := by
  rw [strtol16_hex b1 b2 h1 h2]
  have u1 := hexVal_lt b1 h1
  have u2 := hexVal_lt b2 h2
  unfold byteOfInt
  omega

theorem urlDecodeSpec_other (b : Nat) (rest : List Nat) (h37 : b ≠ 37) (h43 : b ≠ 43) :
    urlDecodeSpec (b :: rest) = b :: urlDecodeSpec rest := by
  conv_lhs => rw [urlDecodeSpec.eq_def]
  split <;> simp_all

theorem url_decode_go_spec (dst_size : Nat) :
    ∀ (j : Nat) (src : List Nat), j + src.length < dst_size →
      url_decode_go dst_size j src = urlDecodeSpec src := by
  intro j src
  induction j, src using url_decode_go.induct dst_size with
  | case1 x =>
      intro _
      simp [url_decode_go, urlDecodeSpec]
  | case2 j hj b1 b2 rest2 hnz ih =>
      intro h
      rw [url_decode_go]
      simp only [hj, if_true, if_pos rfl, hnz, if_pos hnz]
      rw [urlDecodeSpec]
      by_cases hhex : isHexDigitByte b1 = true ∧ isHexDigitByte b2 = true
      · rw [if_pos hhex, byteOfInt_strtol16_hex b1 b2 hhex.1 hhex.2]
        rw [ih (by simp at h ⊢; omega)]
      · rw [if_neg hhex, if_pos hnz]
        rw [ih (by simp at h ⊢; omega)]
  | case3 j hj b1 b2 rest2 hnz ih =>
      intro h
      rw [url_decode_go]
      simp only [hj, if_true, hnz, if_neg hnz]
      rw [urlDecodeSpec]
      have hhex : ¬(isHexDigitByte b1 = true ∧ isHexDigitByte b2 = true) := by
        intro hc
        exact hnz ⟨isHexDigitByte_ne_zero b1 hc.1, isHexDigitByte_ne_zero b2 hc.2⟩
      rw [if_neg hhex, if_neg hnz]
      rw [ih (by simp at h ⊢; omega)]
      simp
  | case4 j hj b1 ih =>
      intro h
      rw [url_decode_go]
      simp only [hj, if_true]
      rw [ih (by simp at h ⊢; omega)]
      rfl
  | case5 j hj ih =>
      intro h
      rw [url_decode_go]
      simp only [hj, if_true]
      rw [ih (by simp at h ⊢; omega)]
      rfl
  | case6 j rest hj hne ih =>
      intro h
      rw [url_decode_go.eq_def]
      simp only [hj, if_true]
      rw [ih (by simp at h ⊢; omega)]
      rfl
  | case7 j b rest hj hb37 hb43 ih =>
      intro h
      rw [url_decode_go.eq_def]
      simp only [hj, if_true, if_neg hb37, if_neg hb43]
      rw [ih (by simp at h ⊢; omega), urlDecodeSpec_other b rest hb37 hb43]
  | case8 j b rest hj =>
      intro h
      simp at h
      omega

theorem url_decode_char_map (dst_size : Nat) (src : List Nat)
    (h : src.length < dst_size) :
    url_decode dst_size src = urlDecodeSpec src :=
  url_decode_go_spec dst_size 0 src (by omega)

/-- Witness for the amended C3 at the concrete query fragment `"%41+"`
(which decodes to `"A "`). -/
theorem url_decode_char_map_witness :
    url_decode 128 [37, 52, 49, 43] = urlDecodeSpec [37, 52, 49, 43] :=
  url_decode_char_map 128 [37, 52, 49, 43] (by decide)

/-! ## HTTP responses (src/http_server.c lines 968-1091)

`HTTP_RESPONSE` holds a status, a status phrase, an ordered header sequence
and a body.  Header names and values live in fixed 128/512-byte buffers, so
`strncpy` keeps at most 127/511 characters; the status phrase buffer keeps
at most 127. -/

/-- The `HTTP_RESPONSE` struct (http_server.h), with the C strings as
character lists. -/
structure HTTP_RESPONSE where
  status : Nat
  status_message : List Char
  headers : List (List Char × List Char)
  body : List Char
deriving DecidableEq, Repr

/-- `http_status_to_string` (http_server.c lines 1120-1137), a switch over
the `HTTP_STATUS` codes. -/
def http_status_to_string : Nat → List Char
  | 200 => "OK".toList
  | 201 => "Created".toList
  | 202 => "Accepted".toList
  | 204 => "No Content".toList
  | 400 => "Bad Request".toList
  | 401 => "Unauthorized".toList
  | 403 => "Forbidden".toList
  | 404 => "Not Found".toList
  | 405 => "Method Not Allowed".toList
  | 500 => "Internal Server Error".toList
  | 501 => "Not Implemented".toList
  | 503 => "Service Unavailable".toList
  | _ => "Unknown".toList

/-- `http_response_add_header` (http_server.c lines 1024-1048): appends the
(truncated) pair to the header array; nothing is ever replaced or removed. -/
def http_response_add_header (r : HTTP_RESPONSE) (name value : List Char) : HTTP_RESPONSE :=
  { r with headers := r.headers ++ [(name.take 127, value.take 511)] }

/-- The identity string injected as the `Server` header
(http_server.c line 994). -/
def SERVER_IDENTITY : List Char := "Equinox/1.0 (HTTP/1.1, HTTP/2)".toList

/-- `http_response_create` (http_server.c lines 968-998): status 200 "OK",
empty body, and the two default headers `Server` and `Connection: close`
added unconditionally before any handler runs. -/
def http_response_create : HTTP_RESPONSE :=
  http_response_add_header
    (http_response_add_header
      { status := 200, status_message := "OK".toList, headers := [], body := [] }
      "Server".toList SERVER_IDENTITY)
    "Connection".toList "close".toList

/-- `http_response_set_status` (http_server.c lines 1013-1022). -/
def http_response_set_status (r : HTTP_RESPONSE) (status : Nat) : HTTP_RESPONSE :=
  { r with status := status, status_message := (http_status_to_string status).take 127 }

/-- `http_response_set_body` (http_server.c lines 1050-1071). -/
def http_response_set_body (r : HTTP_RESPONSE) (body : List Char) : HTTP_RESPONSE :=
  { r with body := body }

/-- `http_response_set_text` (http_server.c lines 1083-1091). -/
def http_response_set_text (r : HTTP_RESPONSE) (text : List Char) : HTTP_RESPONSE :=
  http_response_set_body (http_response_add_header r "Content-Type".toList "text/plain".toList) text

/-- C4 counterexample: a handler that sets its own `Server` header does not
override the injected default — the response then carries both the default
`Server` header and the handler's one (and likewise nothing ever replaces
`Connection: close`), refuting the claimed handler-value-wins behaviour. -/
theorem response_server_header_duplicated :
    (http_response_add_header http_response_create "Server".toList "X".toList).headers =
      [("Server".toList, SERVER_IDENTITY),
       ("Connection".toList, "close".toList),
       ("Server".toList, "X".toList)] := by
  decide

/-- Folding a handler's `http_response_add_header` calls over a response only
appends. -/
theorem add_header_foldl (r : HTTP_RESPONSE) (ops : List (List Char × List Char)) :
    (ops.foldl (fun acc nv => http_response_add_header acc nv.1 nv.2) r).headers =
      r.headers ++ ops.map (fun nv => (nv.1.take 127, nv.2.take 511)) := by
  induction ops generalizing r with
  | nil => simp
  | cons nv tl ih =>
      rw [List.foldl_cons, ih]
      simp [http_response_add_header]

/-- C4 (amended): every response starts with the injected `Server: <identity>`
and `Connection: close` headers, and whatever headers the handler adds (with
`http_response_add_header`, the only header-writing operation) are appended
after them — a handler that sets `Server` or `Connection` itself produces a
response carrying both the default and the handler's value. -/
theorem response_default_headers (ops : List (List Char × List Char)) :
    (ops.foldl (fun acc nv => http_response_add_header acc nv.1 nv.2)
        http_response_create).headers =
      ("Server".toList, SERVER_IDENTITY) :: ("Connection".toList, "close".toList) ::
        ops.map (fun nv => (nv.1.take 127, nv.2.take 511)) := by
  rw [add_header_foldl]
  have h : http_response_create.headers =
      [("Server".toList, SERVER_IDENTITY), ("Connection".toList, "close".toList)] := by
    decide
  rw [h]
  simp


/-! ## HTTP/1.1 response serialisation (src/http_server.c lines 412-472) -/

/-- Decimal digit character, as `snprintf` renders `%d` / `%zu` digits. -/
def digitChar (d : Nat) : Char :=
  if d = 0 then '0' else if d = 1 then '1' else if d = 2 then '2' else if d = 3 then '3'
  else if d = 4 then '4' else if d = 5 then '5' else if d = 6 then '6' else if d = 7 then '7'
  else if d = 8 then '8' else '9'

/-- Decimal rendering of a natural number, most significant digit first; the
fuel argument (always sufficient at `n + 1`) keeps the recursion structural. -/
def natDigitsGo : Nat → Nat → List Char
  | 0, _ => []
  | fuel + 1, n =>
      if n < 10 then [digitChar n]
      else natDigitsGo fuel (n / 10) ++ [digitChar (n % 10)]

/-- `snprintf`'s `%d` (for the status) and `%zu` (for the content length). -/
def natDigits (n : Nat) : List Char := natDigitsGo (n + 1) n

/-- The two-byte line terminator. -/
def CRLF : List Char := ['\r', '\n']

/-- Number of positions at which `pat` occurs as a contiguous substring. -/
def countInfix : List Char → List Char → Nat
  | [], _ => 0
  | c :: rest, pat => (if pat.isPrefixOf (c :: rest) then 1 else 0) + countInfix rest pat

/-- One `name: value` header line (without its terminator), http_server.c
lines 428-431. -/
def header_line (nv : List Char × List Char) : List Char :=
  nv.1 ++ ": ".toList ++ nv.2

/-- The status line written by the first `snprintf` (http_server.c lines
421-425): `HTTP/1.1 <status> <phrase>\r\n`, the phrase being the stored
status message when non-empty and the `http_status_to_string` fallback
otherwise. -/
def status_line (r : HTTP_RESPONSE) : List Char :=
  "HTTP/1.1 ".toList ++ natDigits r.status ++ [' '] ++
    (if r.status_message ≠ [] then r.status_message else http_status_to_string r.status) ++
    CRLF

/-- The response buffer during `build_http_response`: the current allocation
size (`capacity`) and the bytes `buffer[0..offset)` (`out`, so
`offset = out.length`). -/
structure BuildSt where
  capacity : Nat
  out : List Char
deriving DecidableEq, Repr

/-- One `n = snprintf(buffer + offset, capacity - offset, ...); offset += n;`
step of `build_http_response`.  When the string and its terminating NUL fit,
the whole string is written (the NUL lands at the new offset and is
overwritten by the next write, or lies beyond the returned `offset`).
Otherwise `snprintf` writes only the first `capacity - offset - 1`
characters plus a NUL yet still returns the full length, so `offset += n`
skips past the NUL and over bytes never written — after the later realloc
those are uninitialized heap bytes, supplied here by the `garbage` oracle
(indexed by absolute buffer position).  With size 0 nothing at all is
written and `offset` still advances over `n` unwritten bytes.  (If `offset`
ever exceeded `capacity` at a write, the C `capacity - offset` would wrap
and the write would be a heap overflow — undefined behaviour; the model
clamps the size to 0.  `build_http_response` never writes in that state:
the grow check runs after every header line.) -/
def snprintf_cat (garbage : Nat → Char) (st : BuildSt) (line : List Char) : BuildSt :=
  if st.capacity - st.out.length = 0 then
    { st with
        out := st.out ++ (List.range line.length).map (fun i => garbage (st.out.length + i)) }
  else if line.length + 1 ≤ st.capacity - st.out.length then
    { st with out := st.out ++ line }
  else
    { st with
        out :=
          st.out ++ line.take (st.capacity - st.out.length - 1) ++ ['\x00'] ++
            (List.range (line.length - (st.capacity - st.out.length))).map
              (fun i => garbage (st.capacity + i)) }

/-- The grow check after each header line (http_server.c lines 433-441):
`if (offset >= capacity - 512) { capacity *= 2; realloc }`; realloc keeps
the bytes already written. -/
def grow_if_needed (st : BuildSt) : BuildSt :=
  if st.out.length ≥ st.capacity - 512 then { st with capacity := st.capacity * 2 }
  else st

/-- One iteration of the header loop (http_server.c lines 428-442): write
the `name: value\r\n` line, then the grow check. -/
def build_header_step (garbage : Nat → Char) (st : BuildSt)
    (nv : List Char × List Char) : BuildSt :=
  grow_if_needed (snprintf_cat garbage st (header_line nv ++ CRLF))

/-- `build_http_response` (http_server.c lines 412-472): starting from a
1024-byte buffer, write the status line, each header line followed by the
grow check, the `Content-Length` line when the body is non-empty, the blank
line, and append the body bytes (the C code first doubles the buffer until
the body fits, then `memcpy`s it — adding exactly the body bytes).  The
result is `buffer[0..offset)`, the bytes handed to `send`. -/
def build_http_response (garbage : Nat → Char) (r : HTTP_RESPONSE) : List Char :=
  let st1 := snprintf_cat garbage { capacity := 1024, out := [] } (status_line r)
  let st2 := r.headers.foldl (build_header_step garbage) st1
  let st3 :=
    if r.body.length > 0 then
      snprintf_cat garbage st2
        ("Content-Length: ".toList ++ natDigits r.body.length ++ CRLF)
    else st2
  let st4 := snprintf_cat garbage st3 CRLF
  st4.out ++ r.body

/-- The serialised head in the truncation-free regime: status line, header
lines, optional `Content-Length` line, blank line.  This is NOT the
embedding of the C function: `build_http_response_eq_untruncated` below
proves that `build_http_response` emits exactly these bytes (followed by the
body) when every header line fits in the 512 free bytes the grow check
maintains; a longer line is truncated mid-line by `snprintf` (see
`snprintf_cat`). -/
def response_head_untruncated (r : HTTP_RESPONSE) : List Char :=
  status_line r ++
  (r.headers.map (fun nv => header_line nv ++ CRLF)).flatten ++
  (if r.body.length > 0 then "Content-Length: ".toList ++ natDigits r.body.length ++ CRLF
   else []) ++
  CRLF

theorem digitChar_ne_crlf (d : Nat) : digitChar d ≠ '\r' ∧ digitChar d ≠ '\n' := by
  unfold digitChar
  split_ifs <;> exact ⟨by decide, by decide⟩

theorem mem_natDigitsGo (fuel n : Nat) (c : Char) (h : c ∈ natDigitsGo fuel n) :
    c ≠ '\r' ∧ c ≠ '\n' := by
  induction fuel generalizing n with
  | zero => simp [natDigitsGo] at h
  | succ fuel ih =>
      rw [natDigitsGo] at h
      by_cases h10 : n < 10
      · rw [if_pos h10] at h
        simp at h
        subst h
        exact digitChar_ne_crlf n
      · rw [if_neg h10] at h
        rcases List.mem_append.mp h with h' | h'
        · exact ih (n / 10) h'
        · simp at h'
          subst h'
          exact digitChar_ne_crlf (n % 10)

theorem natDigits_clean (n : Nat) : '\r' ∉ natDigits n ∧ '\n' ∉ natDigits n := by
  constructor <;> intro h
  · exact (mem_natDigitsGo (n + 1) n _ h).1 rfl
  · exact (mem_natDigitsGo (n + 1) n _ h).2 rfl

theorem natDigitsGo_succ_ne_nil (fuel n : Nat) : natDigitsGo (fuel + 1) n ≠ [] := by
  rw [natDigitsGo]
  split_ifs <;> simp

theorem natDigits_ne_nil (n : Nat) : natDigits n ≠ [] := natDigitsGo_succ_ne_nil n n

theorem countInfix_append_left (l s : List Char) (hl : '\r' ∉ l) :
    countInfix (l ++ s) (CRLF ++ CRLF) = countInfix s (CRLF ++ CRLF) := by
  induction l with
  | nil => simp
  | cons c l' ih =>
      have hc : c ≠ '\r' := fun h => hl (h ▸ List.mem_cons_self c l')
      have hl' : '\r' ∉ l' := fun h => hl (List.mem_cons_of_mem c h)
      rw [List.cons_append, countInfix]
      rw [ih hl']
      have : (CRLF ++ CRLF).isPrefixOf (c :: (l' ++ s)) = false := by
        simp [CRLF, List.isPrefixOf]
        intro h
        exact absurd h.symm hc
      rw [this]
      simp
  
theorem countInfix_crlf_cons (s : List Char) (hs : s.head? ≠ some '\r') :
    countInfix ('\r' :: '\n' :: s) (CRLF ++ CRLF) = countInfix s (CRLF ++ CRLF) := by
  rw [countInfix, countInfix]
  have h1 : (CRLF ++ CRLF).isPrefixOf ('\n' :: s) = false := by
    simp [CRLF, List.isPrefixOf]
  have h2 : (CRLF ++ CRLF).isPrefixOf ('\r' :: '\n' :: s) = false := by
    cases s with
    | nil => decide
    | cons c s' =>
        simp [CRLF, List.isPrefixOf]
        intro h
        exact absurd (by simp [← h]) hs
  rw [h1, h2]
  simp

theorem countInfix_lines (ls : List (List Char)) (hne : ls ≠ [])
    (hclean : ∀ l ∈ ls, l ≠ [] ∧ '\r' ∉ l) :
    countInfix ((ls.map (fun l => l ++ CRLF)).flatten ++ CRLF) (CRLF ++ CRLF) = 1 := by
  induction ls with
  | nil => exact absurd rfl hne
  | cons a tl ih =>
      obtain ⟨hane, hacr⟩ := hclean a (List.mem_cons_self a tl)
      rw [List.map_cons, List.flatten_cons, List.append_assoc, List.append_assoc]
      rw [countInfix_append_left a _ hacr]
      rw [← List.append_assoc]
      cases tl with
      | nil => decide
      | cons b tl2 =>
          obtain ⟨hbne, _⟩ := hclean b (List.mem_cons_of_mem a (List.mem_cons_self b tl2))
          have hhead : ((((b :: tl2).map (fun l => l ++ CRLF)).flatten ++ CRLF)).head? ≠ some '\r' := by
            rw [List.map_cons, List.flatten_cons, List.append_assoc]
            cases b with
            | nil => exact absurd rfl hbne
            | cons c b' =>
                have hc : c ≠ '\r' := fun h =>
                  (hclean (c :: b') (List.mem_cons_of_mem a (List.mem_cons_self _ tl2))).2
                    (h ▸ List.mem_cons_self c b')
                simp [hc]
      
          rw [show (CRLF ++ ((b :: tl2).map (fun l => l ++ CRLF)).flatten ++ CRLF) =
            '\r' :: '\n' :: (((b :: tl2).map (fun l => l ++ CRLF)).flatten ++ CRLF) from by
              simp [CRLF]]
          rw [countInfix_crlf_cons _ hhead]
          exact ih (by simp) (fun l hl => hclean l (List.mem_cons_of_mem a hl))

theorem natDigitsGo_length_le (fuel : Nat) :
    ∀ (n k : Nat), n < fuel → n < 10 ^ k → 0 < k → (natDigitsGo fuel n).length ≤ k := by
  induction fuel with
  | zero => intro n k h _ _; omega
  | succ fuel ih =>
      intro n k hfuel hnk hk
      rw [natDigitsGo]
      by_cases h10 : n < 10
      · rw [if_pos h10]
        simpa using hk
      · rw [if_neg h10]
        have hk2 : 2 ≤ k := by
          by_contra hlt
          have hk1 : k = 1 := by omega
          rw [hk1, pow_one] at hnk
          omega
        have hpow : 10 * 10 ^ (k - 1) = 10 ^ k := by
          rw [← pow_succ']
          congr 1
          omega
        have hdiv : n / 10 < 10 ^ (k - 1) := by
          apply Nat.div_lt_of_lt_mul
          omega
        have := ih (n / 10) (k - 1) (by omega) hdiv (by omega)
        simp only [List.length_append, List.length_singleton]
        omega

theorem natDigits_length_le (n k : Nat) (h : n < 10 ^ k) (hk : 0 < k) :
    (natDigits n).length ≤ k :=
  natDigitsGo_length_le (n + 1) n k (Nat.lt_succ_self n) h hk

theorem http_status_to_string_length (s : Nat) :
    (http_status_to_string s).length ≤ 21 := by
  rw [http_status_to_string.eq_def]
  split <;> decide

theorem status_line_length (r : HTTP_RESPONSE) (hst : r.status < 2 ^ 31)
    (hmsg : r.status_message.length ≤ 127) : (status_line r).length ≤ 149 := by
  have hd : (natDigits r.status).length ≤ 10 :=
    natDigits_length_le _ 10 (lt_of_lt_of_le hst (by norm_num)) (by norm_num)
  have hph : (if r.status_message ≠ [] then r.status_message
      else http_status_to_string r.status).length ≤ 127 := by
    split_ifs
    · exact hmsg
    · exact le_trans (http_status_to_string_length r.status) (by norm_num)
  have h9 : "HTTP/1.1 ".toList.length = 9 := by decide
  have hsp : ([' '] : List Char).length = 1 := by decide
  have hc : CRLF.length = 2 := by decide
  rw [status_line]
  simp only [List.length_append]
  omega

theorem snprintf_cat_full (garbage : Nat → Char) (st : BuildSt) (line : List Char)
    (h : st.out.length + line.length < st.capacity) :
    snprintf_cat garbage st line = { st with out := st.out ++ line } := by
  rw [snprintf_cat]
  rw [if_neg (by omega), if_pos (by omega)]

theorem headers_fold_clean (garbage : Nat → Char) (hs : List (List Char × List Char)) :
    ∀ st : BuildSt,
      (∀ nv ∈ hs, nv.1.length + nv.2.length ≤ 508) →
      st.out.length + 512 < st.capacity → 512 ≤ st.capacity →
      (hs.foldl (build_header_step garbage) st).out =
          st.out ++ (hs.map (fun nv => header_line nv ++ CRLF)).flatten ∧
        (hs.foldl (build_header_step garbage) st).out.length + 512 <
          (hs.foldl (build_header_step garbage) st).capacity ∧
        512 ≤ (hs.foldl (build_header_step garbage) st).capacity := by
  induction hs with
  | nil =>
      intro st _ h1 h2
      exact ⟨by simp, h1, h2⟩
  | cons nv tl ih =>
      intro st hfit h1 h2
      rw [List.foldl_cons]
      have hmem := hfit nv (List.mem_cons_self nv tl)
      have hcolon : ": ".toList.length = 2 := by decide
      have hc : CRLF.length = 2 := by decide
      have hhlen : (header_line nv).length = nv.1.length + 2 + nv.2.length := by
        simp only [header_line, List.length_append]
        omega
      have hdlen : (header_line nv ++ CRLF).length = (header_line nv).length + 2 := by
        simp only [List.length_append]
        omega
      have hline : (header_line nv ++ CRLF).length ≤ 512 := by
        omega
      by_cases hg : st.out.length + (header_line nv ++ CRLF).length ≥ st.capacity - 512
      · have hstep : build_header_step garbage st nv =
            BuildSt.mk (st.capacity * 2) (st.out ++ (header_line nv ++ CRLF)) := by
          rw [build_header_step, snprintf_cat_full garbage st _ (by omega), grow_if_needed]
          rw [if_pos (by show (st.out ++ (header_line nv ++ CRLF)).length ≥ st.capacity - 512
                         simp only [List.length_append]
                         omega)]
        rw [hstep]
        have hrec := ih (BuildSt.mk (st.capacity * 2) (st.out ++ (header_line nv ++ CRLF)))
          (fun x hx => hfit x (List.mem_cons_of_mem nv hx))
          (by show (st.out ++ (header_line nv ++ CRLF)).length + 512 < st.capacity * 2
              simp only [List.length_append]
              omega)
          (by show 512 ≤ st.capacity * 2
              omega)
        refine ⟨?_, hrec.2.1, hrec.2.2⟩
        rw [hrec.1]
        rw [List.map_cons, List.flatten_cons]
        simp [List.append_assoc]
      · have hstep : build_header_step garbage st nv =
            BuildSt.mk st.capacity (st.out ++ (header_line nv ++ CRLF)) := by
          rw [build_header_step, snprintf_cat_full garbage st _ (by omega), grow_if_needed]
          rw [if_neg (by show ¬(st.out ++ (header_line nv ++ CRLF)).length ≥ st.capacity - 512
                         simp only [List.length_append]
                         omega)]
        rw [hstep]
        have hrec := ih (BuildSt.mk st.capacity (st.out ++ (header_line nv ++ CRLF)))
          (fun x hx => hfit x (List.mem_cons_of_mem nv hx))
          (by show (st.out ++ (header_line nv ++ CRLF)).length + 512 < st.capacity
              simp only [List.length_append]
              omega)
          h2
        refine ⟨?_, hrec.2.1, hrec.2.2⟩
        rw [hrec.1]
        rw [List.map_cons, List.flatten_cons]
        simp [List.append_assoc]

theorem build_http_response_eq_untruncated (garbage : Nat → Char) (r : HTTP_RESPONSE)
    (hst : r.status < 2 ^ 31) (hmsg_len : r.status_message.length ≤ 127)
    (hbody_len : r.body.length < 2 ^ 64)
    (hfit : ∀ nv ∈ r.headers, nv.1.length + nv.2.length ≤ 508) :
    build_http_response garbage r = response_head_untruncated r ++ r.body := by
  have hsl := status_line_length r hst hmsg_len
  have hd : (natDigits r.body.length).length ≤ 20 :=
    natDigits_length_le _ 20 (lt_of_lt_of_le hbody_len (by norm_num)) (by norm_num)
  have hc2 : CRLF.length = 2 := by decide
  have hcl16 : "Content-Length: ".toList.length = 16 := by decide
  simp only [build_http_response]
  have h1 : snprintf_cat garbage { capacity := 1024, out := [] } (status_line r) =
      BuildSt.mk 1024 (status_line r) := by
    rw [snprintf_cat_full garbage { capacity := 1024, out := [] } (status_line r)
      (by show ([] : List Char).length + (status_line r).length < 1024
          simp only [List.length_nil]
          omega)]
    simp
  rw [h1]
  obtain ⟨hout, hinv, hcap⟩ := headers_fold_clean garbage r.headers
    (BuildSt.mk 1024 (status_line r)) hfit
    (by show (status_line r).length + 512 < 1024
        omega)
    (by show (512 : Nat) ≤ 1024
        norm_num)
  set st2 := r.headers.foldl (build_header_step garbage) (BuildSt.mk 1024 (status_line r))
    with hst2
  by_cases hb : r.body.length > 0
  · rw [if_pos hb]
    have h3 : snprintf_cat garbage st2
        ("Content-Length: ".toList ++ natDigits r.body.length ++ CRLF) =
        BuildSt.mk st2.capacity
          (st2.out ++ ("Content-Length: ".toList ++ natDigits r.body.length ++ CRLF)) := by
      rw [snprintf_cat_full garbage st2 _
        (by simp only [List.length_append]
            omega)]
    rw [h3]
    have h4 : snprintf_cat garbage
        (BuildSt.mk st2.capacity
          (st2.out ++ ("Content-Length: ".toList ++ natDigits r.body.length ++ CRLF))) CRLF =
        BuildSt.mk st2.capacity
          ((st2.out ++ ("Content-Length: ".toList ++ natDigits r.body.length ++ CRLF)) ++
            CRLF) := by
      rw [snprintf_cat_full garbage _ CRLF
        (by show (st2.out ++ ("Content-Length: ".toList ++ natDigits r.body.length ++ CRLF)).length +
              CRLF.length < st2.capacity
            simp only [List.length_append]
            omega)]
    rw [h4]
    show (st2.out ++ ("Content-Length: ".toList ++ natDigits r.body.length ++ CRLF)) ++ CRLF ++
        r.body = response_head_untruncated r ++ r.body
    rw [hout, response_head_untruncated, if_pos hb]
  · rw [if_neg hb]
    have h4 : snprintf_cat garbage st2 CRLF = BuildSt.mk st2.capacity (st2.out ++ CRLF) := by
      rw [snprintf_cat_full garbage st2 CRLF (by omega)]
    rw [h4]
    show st2.out ++ CRLF ++ r.body = response_head_untruncated r ++ r.body
    rw [hout, response_head_untruncated, if_neg hb]
    simp [List.append_assoc]

/-- The response head as a list of CRLF-free lines: status line, one line per
header, and the `Content-Length` line when the body is non-empty. -/
def responseLines (r : HTTP_RESPONSE) : List (List Char) :=
  ("HTTP/1.1 ".toList ++ natDigits r.status ++ [' '] ++
     (if r.status_message ≠ [] then r.status_message else http_status_to_string r.status)) ::
  (r.headers.map header_line ++
   (if r.body.length > 0 then ["Content-Length: ".toList ++ natDigits r.body.length] else []))

theorem build_head_eq_lines (r : HTTP_RESPONSE) :
    response_head_untruncated r =
      ((responseLines r).map (fun l => l ++ CRLF)).flatten ++ CRLF := by
  unfold response_head_untruncated status_line responseLines
  rw [List.map_cons, List.flatten_cons, List.map_append, List.flatten_append]
  by_cases hb : r.body.length > 0
  · simp only [hb, if_true, if_pos hb]
    simp [List.append_assoc, Function.comp_def]
  · simp only [hb, if_false, if_neg hb]
    simp [List.append_assoc, Function.comp_def]

theorem http_status_to_string_clean (s : Nat) :
    http_status_to_string s ≠ [] ∧ '\r' ∉ http_status_to_string s ∧
      '\n' ∉ http_status_to_string s := by
  rw [http_status_to_string.eq_def]
  split <;> decide

theorem responseLines_clean (r : HTTP_RESPONSE)
    (hclean : ∀ nv ∈ r.headers, '\r' ∉ nv.1 ∧ '\n' ∉ nv.1 ∧ '\r' ∉ nv.2 ∧ '\n' ∉ nv.2)
    (hmsg : '\r' ∉ r.status_message ∧ '\n' ∉ r.status_message) :
    ∀ l ∈ responseLines r, l ≠ [] ∧ '\r' ∉ l := by
  intro l hl
  rw [responseLines, List.mem_cons] at hl
  rcases hl with rfl | hl
  · refine ⟨by simp, ?_⟩
    intro hmem
    simp only [List.mem_append] at hmem
    rcases hmem with ((h | h) | h) | h
    · revert h; decide
    · exact (natDigits_clean r.status).1 h
    · revert h; decide
    · by_cases hm : r.status_message ≠ []
      · rw [if_pos hm] at h
        exact hmsg.1 h
      · rw [if_neg hm] at h
        exact (http_status_to_string_clean r.status).2.1 h
  · rcases List.mem_append.mp hl with hl | hl
    · obtain ⟨nv, hnv, rfl⟩ := List.mem_map.mp hl
      obtain ⟨h1, _, h2, _⟩ := hclean nv hnv
      refine ⟨by simp [header_line], ?_⟩
      intro hmem
      rw [header_line] at hmem
      simp only [List.mem_append] at hmem
      rcases hmem with (h | h) | h
      · exact h1 h
      · revert h; decide
      · exact h2 h
    · by_cases hb : r.body.length > 0
      · rw [if_pos hb] at hl
        simp only [List.mem_singleton] at hl
        subst hl
        refine ⟨by simp, ?_⟩
        intro hmem
        simp only [List.mem_append] at hmem
        rcases hmem with h | h
        · revert h; decide
        · exact (natDigits_clean r.body.length).1 h
      · rw [if_neg hb] at hl
        simp at hl

/-- C7 (amended): for any contents of the uninitialized heap bytes, every
serialised response whose fields respect the C struct bounds
(`status` an `int`, `status_message` in `char[128]`, `body_length` a
`size_t`) and whose header lines each fit in the 512 free bytes the grow
check maintains (name plus value at most 508 bytes — a longer line is
truncated mid-line by `snprintf`, see `snprintf_cat`) serialises to the
truncation-free head followed by the body; that head begins with
`"HTTP/1.1 "`, carries a `Content-Length` line equal to the byte length of
the body whenever the body is non-empty, and — provided additionally no
header name, header value or status phrase contains a CR or LF byte (a
handler may inject them, see the counterexample) — contains the four-byte
sequence CRLF CRLF exactly once. -/
theorem build_http_response_wellformed (garbage : Nat → Char) (r : HTTP_RESPONSE)
    (hst : r.status < 2 ^ 31) (hmsg_len : r.status_message.length ≤ 127)
    (hbody_len : r.body.length < 2 ^ 64)
    (hfit : ∀ nv ∈ r.headers, nv.1.length + nv.2.length ≤ 508)
    (hclean : ∀ nv ∈ r.headers, '\r' ∉ nv.1 ∧ '\n' ∉ nv.1 ∧ '\r' ∉ nv.2 ∧ '\n' ∉ nv.2)
    (hmsg : '\r' ∉ r.status_message ∧ '\n' ∉ r.status_message) :
    build_http_response garbage r = response_head_untruncated r ++ r.body ∧
    (build_http_response garbage r).take 9 = "HTTP/1.1 ".toList ∧
    countInfix (response_head_untruncated r) (CRLF ++ CRLF) = 1 ∧
    (r.body ≠ [] →
      ("Content-Length: ".toList ++ natDigits r.body.length ++ CRLF) <:+:
        response_head_untruncated r) := by
  have heq := build_http_response_eq_untruncated garbage r hst hmsg_len hbody_len hfit
  refine ⟨heq, ?_, ?_, ?_⟩
  · rw [heq, response_head_untruncated, status_line]
    simp only [List.append_assoc]
    exact List.take_left' (by decide)
  · rw [build_head_eq_lines]
    exact countInfix_lines _ (by simp [responseLines]) (responseLines_clean r hclean hmsg)
  · intro hb
    have hb' : r.body.length > 0 := List.length_pos.mpr hb
    rw [response_head_untruncated, if_pos hb']
    exact ⟨status_line r ++ (r.headers.map (fun nv => header_line nv ++ CRLF)).flatten, CRLF,
      by simp only [List.append_assoc]⟩

/-- C7 counterexample: a handler-supplied header value containing CR/LF bytes
(`"a\r\n\r\nb"`) makes the serialised response (whose body here is empty)
contain the four-byte sequence CRLF CRLF twice before the body, refuting the
exactly-once claim for arbitrary responses.  (The headers are far below the
truncation threshold, so the heap oracle is irrelevant; it is fixed to
spaces.) -/
theorem build_http_response_crlf_counterexample :
    countInfix
        (build_http_response (fun _ => ' ')
          (http_response_add_header http_response_create "X".toList "a\r\n\r\nb".toList))
        (CRLF ++ CRLF) = 2 := by
  decide

/-- Witness for the amended C7 at the concrete 404 response produced by
`http_response_set_status` + `http_response_set_text`. -/
theorem build_http_response_wellformed_witness :
    build_http_response (fun _ => ' ')
        (http_response_set_text (http_response_set_status http_response_create 404)
          "404 Not Found".toList) =
      response_head_untruncated
          (http_response_set_text (http_response_set_status http_response_create 404)
            "404 Not Found".toList) ++
        (http_response_set_text (http_response_set_status http_response_create 404)
          "404 Not Found".toList).body ∧
    (build_http_response (fun _ => ' ')
        (http_response_set_text (http_response_set_status http_response_create 404)
          "404 Not Found".toList)).take 9 = "HTTP/1.1 ".toList ∧
    countInfix
        (response_head_untruncated
          (http_response_set_text (http_response_set_status http_response_create 404)
            "404 Not Found".toList)) (CRLF ++ CRLF) = 1 ∧
    ((http_response_set_text (http_response_set_status http_response_create 404)
          "404 Not Found".toList).body ≠ [] →
      ("Content-Length: ".toList ++
          natDigits (http_response_set_text (http_response_set_status http_response_create 404)
            "404 Not Found".toList).body.length ++ CRLF) <:+:
        response_head_untruncated
          (http_response_set_text (http_response_set_status http_response_create 404)
            "404 Not Found".toList)) :=
  build_http_response_wellformed (fun _ => ' ') _ (by decide) (by decide) (by decide)
    (by decide) (by decide) (by decide)

/-! ## Route table and pattern matching (src/http_route.c, src/http_server.c)

`http_route_matches` walks pattern and path with two cursors; a segment ends
at the next `'/'` or at NUL.  The cursor arithmetic is modelled by
`segSplit` (split at the first `'/'`) and `skipSlash` (the single
`if (*p == '/') p++` step). -/

/-- `HTTP_METHOD` (http_server.h). -/
inductive HTTP_METHOD where
  | GET
  | POST
  | PUT
  | DELETE
  | PATCH
  | HEAD
  | OPTIONS
  | UNKNOWN
deriving DecidableEq, Repr

/-- `HTTP_ROUTE` (http_route.h): the handler function pointer and the opaque
user data are opaque identifiers here. -/
structure HTTP_ROUTE where
  method : HTTP_METHOD
  path : List Char
  handler : Nat
deriving DecidableEq, Repr

/-- Split a C string at its current segment end: the segment up to (not
including) the first `'/'`, and the rest starting at that `'/'` (the
`strchr(p, '/')` / `pattern_len` computation, http_route.c lines 69-73). -/
def segSplit : List Char → List Char × List Char
  | [] => ([], [])
  | c :: cs =>
      if c = '/' then ([], c :: cs)
      else
        let p := segSplit cs
        (c :: p.1, p.2)

/-- The single `if (*p == '/') p++` step (http_route.c lines 89-90; also the
leading-slash strip at lines 64-65). -/
def skipSlash (s : List Char) : List Char :=
  if s.head? = some '/' then s.tail else s

theorem segSplit_length (s : List Char) :
    (segSplit s).1.length + (segSplit s).2.length = s.length := by
  induction s with
  | nil => simp [segSplit]
  | cons c cs ih =>
      rw [segSplit]
      split_ifs with h
      · simp
      · simp only [List.length_cons]
        omega

theorem skipSlash_length_le (s : List Char) : (skipSlash s).length ≤ s.length := by
  rw [skipSlash]
  split_ifs with h
  · cases s <;> simp
  · exact Nat.le_refl _

theorem skipSlash_segSplit_lt (s : List Char) (h : s ≠ []) :
    (skipSlash (segSplit s).2).length < s.length := by
  cases s with
  | nil => exact absurd rfl h
  | cons c cs =>
      rw [segSplit]
      split_ifs with hc
      · simp [skipSlash, hc]
      · have h1 := segSplit_length cs
        have h2 := skipSlash_length_le (segSplit cs).2
        simp only [List.length_cons]
        omega

/-- The segment-walking loop of `http_route_matches` (http_route.c lines
67-94): while both cursors point at bytes, compare one segment (a pattern
segment starting with `':'` matches anything), advance both cursors past the
segment and one `'/'`; on exit both strings must be exhausted. -/
def matchSegs (pat path : List Char) : Bool :=
  if pat = [] ∨ path = [] then pat.isEmpty && path.isEmpty
  else
    (if pat.head? = some ':' then true else (segSplit pat).1 == (segSplit path).1) &&
    matchSegs (skipSlash (segSplit pat).2) (skipSlash (segSplit path).2)
termination_by pat.length
decreasing_by
  exact skipSlash_segSplit_lt pat (by tauto)

/-- `http_route_matches` (http_route.c lines 38-95): method equality, then an
exact `strcmp` shortcut, then — only for patterns containing `':'` — the
segment walk after stripping one leading `'/'` from each side. -/
def http_route_matches (route : HTTP_ROUTE) (m : HTTP_METHOD) (path : List Char) : Bool :=
  if route.method ≠ m then false
  else if route.path == path then true
  else if ¬route.path.contains ':' then false
  else matchSegs (skipSlash route.path) (skipSlash path)

/-- The route-dispatch loop of `process_http_request` (http_server.c lines
520-528): scan the registration-ordered route array and stop at the first
route that matches; only that route's handler is invoked afterwards
(http_server.c lines 530-532). -/
def find_matched_route : List HTTP_ROUTE → HTTP_METHOD → List Char → Option HTTP_ROUTE
  | [], _, _ => none
  | r :: rs, m, p =>
      if http_route_matches r m p then some r else find_matched_route rs m p

theorem find_matched_route_eq_find? (routes : List HTTP_ROUTE) (m : HTTP_METHOD)
    (p : List Char) :
    find_matched_route routes m p = routes.find? (fun r => http_route_matches r m p) := by
  induction routes with
  | nil => rfl
  | cons r rs ih =>
      rw [find_matched_route, List.find?_cons]
      split_ifs with h <;> simp_all

/-- C5: the dispatch step of `process_http_request` selects exactly the first
route in registration order whose pattern matches the request: it returns
route `r` precisely when `r` matches, `r` sits at some index `i` of the route
table, and no route before index `i` matches; in particular no handler of a
later matching route is invoked (only the returned route's handler is
called). -/
theorem find_matched_route_first (routes : List HTTP_ROUTE) (m : HTTP_METHOD)
    (p : List Char) (r : HTTP_ROUTE) :
    find_matched_route routes m p = some r ↔
      http_route_matches r m p = true ∧
      ∃ i h, routes[i] = r ∧
        ∀ j : Nat, (hj : j < i) → http_route_matches routes[j] m p = false := by
  rw [find_matched_route_eq_find?, List.find?_eq_some_iff_getElem]
  simp only [Bool.not_eq_true']

/-- The sequence of segments the cursor loop consumes: repeatedly the segment
before the next `'/'`, then skip one `'/'`. -/
def segsOf (s : List Char) : List (List Char) :=
  if s = [] then [] else (segSplit s).1 :: segsOf (skipSlash (segSplit s).2)
termination_by s.length
decreasing_by
  exact skipSlash_segSplit_lt s (by tauto)

theorem segsOf_nil : segsOf [] = [] := by
  rw [segsOf]
  simp

theorem segsOf_ne_nil (s : List Char) (h : s ≠ []) :
    segsOf s = (segSplit s).1 :: segsOf (skipSlash (segSplit s).2) := by
  rw [segsOf, if_neg h]

/-- Pairwise segment matching where a pattern segment beginning with `':'`
matches ANY path segment — the empty one included — and both lists must be
exhausted together. -/
def pairMatchAny : List (List Char) → List (List Char) → Bool
  | [], [] => true
  | p :: ps, s :: ss =>
      (if p.head? = some ':' then true else p == s) && pairMatchAny ps ss
  | _, _ => false

/-- Pairwise segment matching as C6 states it: a `':'` pattern segment
matches any single NON-EMPTY path segment. -/
def pairMatchNonEmpty : List (List Char) → List (List Char) → Bool
  | [], [] => true
  | p :: ps, s :: ss =>
      (if p.head? = some ':' then !s.isEmpty else p == s) && pairMatchNonEmpty ps ss
  | _, _ => false

theorem matchSegs_eq_pairMatchAny (pat path : List Char) :
    matchSegs pat path = pairMatchAny (segsOf pat) (segsOf path) := by
  induction pat, path using matchSegs.induct with
  | case1 pat path h =>
      rw [matchSegs, if_pos h]
      rcases h with h | h
      · subst h
        rw [segsOf_nil]
        cases path with
        | nil => rw [segsOf_nil]; rfl
        | cons c cs =>
            rw [segsOf_ne_nil _ (by simp)]
            simp [pairMatchAny]
      · subst h
        rw [segsOf_nil]
        cases pat with
        | nil => rw [segsOf_nil]; rfl
        | cons c cs =>
            rw [segsOf_ne_nil _ (by simp)]
            simp [pairMatchAny]
  | case2 pat path h ih =>
      have hpat : pat ≠ [] := fun hc => h (Or.inl hc)
      have hpath : path ≠ [] := fun hc => h (Or.inr hc)
      rw [matchSegs, if_neg h]
      rw [segsOf_ne_nil pat hpat, segsOf_ne_nil path hpath]
      rw [pairMatchAny, ih]
      have hhead : ((segSplit pat).1.head? = some ':') ↔ (pat.head? = some ':') := by
        cases pat with
        | nil => exact absurd rfl hpat
        | cons c cs =>
            rw [segSplit]
            split_ifs with hc
            · subst hc
              simp
            · simp
      by_cases hcolon : pat.head? = some ':'
      · rw [if_pos hcolon, if_pos (hhead.mpr hcolon)]
      · rw [if_neg hcolon, if_neg (fun hc => hcolon (hhead.mp hc))]

/-- C6 (amended): route matching strips a single leading `'/'` from both
sides, walks segments pairwise, requires a literal pattern segment to be
byte-equal to the path segment, succeeds only when pattern and path run out
of segments together, and a segment beginning with `':'` matches any single
path segment INCLUDING an empty one (consecutive slashes yield an empty
segment); for a pattern without `':'` only a byte-identical path matches
(the exact-`strcmp` shortcut). -/
theorem http_route_matches_spec (route : HTTP_ROUTE) (m : HTTP_METHOD) (path : List Char) :
    http_route_matches route m path =
      (decide (route.method = m) &&
        (route.path == path ||
          (route.path.contains ':' &&
            pairMatchAny (segsOf (skipSlash route.path)) (segsOf (skipSlash path))))) := by
  rw [http_route_matches]
  by_cases hm : route.method = m
  · rw [if_neg (not_not_intro hm)]
    by_cases hp : route.path == path
    · rw [if_pos hp, hp]
      simp [hm]
    · rw [if_neg hp]
      have hp' : (route.path == path) = false := by simpa using hp
      rw [hp']
      by_cases hc : route.path.contains ':' = true
      · rw [if_neg (not_not_intro hc), hc]
        simp [hm, matchSegs_eq_pairMatchAny]
      · rw [if_pos (by simpa using hc)]
        have hc' : route.path.contains ':' = false := by simpa using hc
        rw [hc']
        simp
  · rw [if_pos (by simpa using hm)]
    have hm' : decide (route.method = m) = false := by simpa using hm
    rw [hm']
    simp

/-- C6 counterexample: the pattern `/u/:x/b` DOES match the path `/u//b`,
whose middle segment is empty — refuting "a `:name` segment never matches an
empty segment" (the claim-faithful matcher `pairMatchNonEmpty` rejects this
pattern/path pair). -/
theorem route_matches_empty_segment :
    http_route_matches ⟨.GET, "/u/:x/b".toList, 0⟩ .GET "/u//b".toList = true ∧
    pairMatchNonEmpty (segsOf (skipSlash "/u/:x/b".toList))
        (segsOf (skipSlash "/u//b".toList)) = false ∧
    segsOf (skipSlash "/u//b".toList) = ["u".toList, [], "b".toList] := by
  refine ⟨?_, ?_, ?_⟩
  · rw [http_route_matches]
    simp [matchSegs, segSplit, skipSlash]
  · simp [segsOf, segSplit, skipSlash, pairMatchNonEmpty]
  · simp [segsOf, segSplit, skipSlash]

/-! ## Static file serving (src/http_server.c lines 1140-1267)

`serve_static_file` resolves the URL path against the configured static
mapping, blocks paths whose resolved form contains `".."`, and otherwise
opens the file.  The filesystem is an oracle `fs : path → Option contents`;
the list of paths passed to `fopen` is returned so that "performs no
filesystem open" is a statement about the model. -/

/-- `strstr(s, pat) != NULL`: does `pat` occur as a contiguous substring? -/
def hasInfix (s pat : List Char) : Bool :=
  match s with
  | [] => pat.isEmpty
  | _ :: rest => pat.isPrefixOf s || hasInfix rest pat

/-- The characters after the last `'.'` of the filename
(`strrchr(filename, '.')`, http_server.c line 1145). -/
def afterLastDot : List Char → Option (List Char)
  | [] => none
  | c :: cs =>
      match afterLastDot cs with
      | some r => some r
      | none => if c = '.' then some cs else none

/-- `http_get_mime_type` (http_server.c lines 1141-1171); the `strcasecmp`
comparisons become comparisons of the lower-cased extension. -/
def http_get_mime_type (filename : List Char) : List Char :=
  match afterLastDot filename with
  | none => "application/octet-stream".toList
  | some ext =>
      let e := ext.map Char.toLower
      if e = "html".toList ∨ e = "htm".toList then "text/html".toList
      else if e = "css".toList then "text/css".toList
      else if e = "js".toList then "application/javascript".toList
      else if e = "json".toList then "application/json".toList
      else if e = "xml".toList then "application/xml".toList
      else if e = "txt".toList then "text/plain".toList
      else if e = "png".toList then "image/png".toList
      else if e = "jpg".toList ∨ e = "jpeg".toList then "image/jpeg".toList
      else if e = "gif".toList then "image/gif".toList
      else if e = "svg".toList then "image/svg+xml".toList
      else if e = "ico".toList then "image/x-icon".toList
      else if e = "woff".toList then "font/woff".toList
      else if e = "woff2".toList then "font/woff2".toList
      else if e = "ttf".toList then "font/ttf".toList
      else "application/octet-stream".toList

/-- The path-resolution prologue of `serve_static_file` (http_server.c lines
1202-1217): `none` when static serving is disabled or the URL does not start
with the configured prefix; otherwise the `file_path` buffer contents —
directory, `'/'`, the remainder after the prefix (one leading `'/'`
stripped), with the default file name appended when that remainder is empty
or ends in `'/'`.  `snprintf` keeps at most 1023 characters. -/
def resolve_static_path (static_enabled : Bool)
    (static_url_path static_directory default_file : List Char)
    (url_path : List Char) : Option (List Char) :=
  if ¬static_enabled then none
  else if ¬static_url_path.isPrefixOf url_path then none
  else
    let rel := skipSlash (url_path.drop static_url_path.length)
    some ((if rel = [] ∨ rel.getLast? = some '/' then
            static_directory ++ ['/'] ++ rel ++ default_file
          else
            static_directory ++ ['/'] ++ rel).take 1023)

/-- `serve_static_file` (http_server.c lines 1200-1267): returns the C return
value, the updated response, and the list of paths passed to `fopen`. -/
def serve_static_file (fs : List Char → Option (List Char)) (static_enabled : Bool)
    (static_url_path static_directory default_file : List Char)
    (url_path : List Char) (response : HTTP_RESPONSE) :
    Int × HTTP_RESPONSE × List (List Char) :=
  match resolve_static_path static_enabled static_url_path static_directory default_file
      url_path with
  | none => (-1, response, [])
  | some file_path =>
      if hasInfix file_path "..".toList then
        (0, http_response_set_text (http_response_set_status response 403)
              "403 Forbidden".toList, [])
      else
        match fs file_path with
        | none =>
            (0, http_response_set_text (http_response_set_status response 404)
                  "404 Not Found".toList, [file_path])
        | some content =>
            if content.length > 10 * 1024 * 1024 then
              (0, http_response_set_text (http_response_set_status response 500)
                    "File too large".toList, [file_path])
            else
              (0, http_response_set_body
                    (http_response_add_header (http_response_set_status response 200)
                      "Content-Type".toList (http_get_mime_type file_path))
                    content, [file_path])

/-- C8: for every request URL whose resolved filesystem path contains the
substring `".."`, the static file server returns 0 with the response status
set to 403 Forbidden, and no path is ever passed to `fopen`. -/
theorem serve_static_blocks_traversal (fs : List Char → Option (List Char))
    (static_enabled : Bool) (static_url_path static_directory default_file : List Char)
    (url_path file_path : List Char) (response : HTTP_RESPONSE)
    (hres : resolve_static_path static_enabled static_url_path static_directory
        default_file url_path = some file_path)
    (hdots : hasInfix file_path "..".toList = true) :
    (serve_static_file fs static_enabled static_url_path static_directory default_file
        url_path response).1 = 0 ∧
    (serve_static_file fs static_enabled static_url_path static_directory default_file
        url_path response).2.1.status = 403 ∧
    (serve_static_file fs static_enabled static_url_path static_directory default_file
        url_path response).2.2 = [] := by
  rw [serve_static_file, hres]
  simp only [hdots, if_true]
  simp [http_response_set_text, http_response_set_body, http_response_add_header,
    http_response_set_status]

/-- Witness for C8 at the S5 scenario: mapping `/` to `./public`, request
`/../etc/passwd` resolves to `./public/../etc/passwd`, is blocked with 403,
and no fopen happens. -/
theorem serve_static_blocks_traversal_witness :
    (serve_static_file (fun _ => none) true "/".toList "./public".toList
        "index.html".toList "/../etc/passwd".toList http_response_create).1 = 0 ∧
    (serve_static_file (fun _ => none) true "/".toList "./public".toList
        "index.html".toList "/../etc/passwd".toList http_response_create).2.1.status = 403 ∧
    (serve_static_file (fun _ => none) true "/".toList "./public".toList
        "index.html".toList "/../etc/passwd".toList http_response_create).2.2 = [] :=
  serve_static_blocks_traversal (fun _ => none) true "/".toList "./public".toList
    "index.html".toList "/../etc/passwd".toList "./public/../etc/passwd".toList
    http_response_create (by decide) (by decide)

/-! ## Reactor connection bound (src/http_server.c lines 42-294, 611-720)

The connection-count discipline of the reactor: `http_server_create` fixes
`max_connections = 1000`, `add_connection` refuses a new record once the
bound is reached, `accept_new_connection` closes any socket it cannot
register, `remove_connection` drops one record, `http_server_stop` closes
everything.  Sockets are opaque numbers; the reactor state is the slice of
`HTTP_SERVER` these functions touch. -/

/-- The connection-tracking slice of `HTTP_SERVER` (http_server.h). -/
structure HTTP_SERVER_ST where
  running : Bool
  connections : List Nat
  max_connections : Nat
deriving DecidableEq, Repr

/-- `http_server_create` (http_server.c lines 42-86): no connections,
`max_connections = 1000`, not running. -/
def http_server_create : HTTP_SERVER_ST :=
  { running := false, connections := [], max_connections := 1000 }

/-- `http_server_start` (http_server.c lines 181-260): socket setup aside,
it flips `running` (the connection table is untouched). -/
def http_server_start (s : HTTP_SERVER_ST) : HTTP_SERVER_ST :=
  { s with running := true }

/-- `http_server_stop` (http_server.c lines 262-294): closes every client
connection and clears the table. -/
def http_server_stop (s : HTTP_SERVER_ST) : HTTP_SERVER_ST :=
  { s with running := false, connections := [] }

/-- `add_connection` (http_server.c lines 134-157): `none` (record refused)
once `connection_count >= max_connections`, else the socket is appended. -/
def add_connection (s : HTTP_SERVER_ST) (sock : Nat) : Option HTTP_SERVER_ST :=
  if s.connections.length ≥ s.max_connections then none
  else some { s with connections := s.connections ++ [sock] }

/-- `remove_connection` (http_server.c lines 160-179): drops one matching
record (the C code moves the last record into the freed slot). -/
def remove_connection (s : HTTP_SERVER_ST) (sock : Nat) : HTTP_SERVER_ST :=
  { s with connections := s.connections.erase sock }

/-- The `accept` loop body of `accept_new_connection` (http_server.c lines
611-659): for each pending socket, try `add_connection`; on `none` the
socket is closed immediately (recorded in the second component) and the loop
continues.  (An `epoll_ctl` failure also closes the socket via
`remove_connection`; that path only shrinks the table and is omitted.) -/
def accept_go : HTTP_SERVER_ST → List Nat → List Nat → HTTP_SERVER_ST × List Nat
  | s, closed, [] => (s, closed)
  | s, closed, sock :: rest =>
      match add_connection s sock with
      | some s' => accept_go s' closed rest
      | none => accept_go s (closed ++ [sock]) rest

/-- `accept_new_connection` over the sockets the kernel has pending: final
state and the list of sockets closed without a connection record. -/
def accept_new_connection (s : HTTP_SERVER_ST) (pending : List Nat) :
    HTTP_SERVER_ST × List Nat :=
  accept_go s [] pending

/-- One iteration's worth of reactor transitions in `http_server_run`
(http_server.c lines 661-720): accepting pending sockets, closing a
connection (client data done, error, hang-up or idle sweep), or stopping. -/
inductive ReactorStep : HTTP_SERVER_ST → HTTP_SERVER_ST → Prop
  | accept (s : HTTP_SERVER_ST) (pending : List Nat) :
      ReactorStep s (accept_new_connection s pending).1
  | remove (s : HTTP_SERVER_ST) (sock : Nat) :
      ReactorStep s (remove_connection s sock)
  | stop (s : HTTP_SERVER_ST) : ReactorStep s (http_server_stop s)

/-- The reactor states reachable from a freshly created-and-started server. -/
inductive ReactorReachable : HTTP_SERVER_ST → Prop
  | start : ReactorReachable (http_server_start http_server_create)
  | step {s t : HTTP_SERVER_ST} : ReactorReachable s → ReactorStep s t →
      ReactorReachable t

theorem accept_go_bound (pending : List Nat) :
    ∀ (s : HTTP_SERVER_ST) (closed : List Nat),
      s.connections.length ≤ s.max_connections →
      (accept_go s closed pending).1.connections.length ≤
          (accept_go s closed pending).1.max_connections ∧
        (accept_go s closed pending).1.max_connections = s.max_connections := by
  induction pending with
  | nil =>
      intro s closed h
      exact ⟨h, rfl⟩
  | cons sock rest ih =>
      intro s closed h
      rw [accept_go]
      rw [add_connection]
      split_ifs with hfull
      · exact ih s (closed ++ [sock]) h
      · have := ih { s with connections := s.connections ++ [sock] } closed
          (by simp; omega)
        simpa using this

/-- C9: every reachable reactor state holds at most `max_connections` live
connections, and `max_connections` is the default 1000; moreover an accept
arriving at the bound creates no connection record, closes the accepted
socket immediately, and leaves the server state (including `running`)
unchanged. -/
theorem reactor_connection_bound (s : HTTP_SERVER_ST) (h : ReactorReachable s) :
    (s.connections.length ≤ s.max_connections ∧ s.max_connections = 1000) ∧
    (∀ sock : Nat, s.connections.length ≥ s.max_connections →
      accept_new_connection s [sock] = (s, [sock])) := by
  have hover : ∀ (t : HTTP_SERVER_ST) (sock : Nat),
      t.connections.length ≥ t.max_connections →
      accept_new_connection t [sock] = (t, [sock]) := by
    intro t sock hfull
    rw [accept_new_connection, accept_go, add_connection, if_pos hfull]
    simp [accept_go]
  refine ⟨?_, hover s⟩
  induction h with
  | start => exact ⟨by simp [http_server_start, http_server_create], rfl⟩
  | @step s' t' hreach hstep ih =>
      cases hstep with
      | accept pending =>
          have hb := accept_go_bound pending s' [] ih.1
          exact ⟨hb.1, hb.2.trans ih.2⟩
      | remove sock =>
          refine ⟨?_, by simp [remove_connection, ih.2]⟩
          have hle : (s'.connections.erase sock).length ≤ s'.connections.length :=
            (List.erase_sublist sock s'.connections).length_le
          have h1 := ih.1
          simp only [remove_connection]
          omega
      | stop =>
          exact ⟨by simp [http_server_stop], by simp [http_server_stop, ih.2]⟩

/-- Witness for C9 at the concrete state reached by starting the server and
accepting two sockets. -/
theorem reactor_connection_bound_witness :
    ((((accept_new_connection (http_server_start http_server_create) [5, 6]).1).connections.length ≤
        ((accept_new_connection (http_server_start http_server_create) [5, 6]).1).max_connections ∧
      ((accept_new_connection (http_server_start http_server_create) [5, 6]).1).max_connections = 1000) ∧
    (∀ sock : Nat,
      ((accept_new_connection (http_server_start http_server_create) [5, 6]).1).connections.length ≥
          ((accept_new_connection (http_server_start http_server_create) [5, 6]).1).max_connections →
      accept_new_connection ((accept_new_connection (http_server_start http_server_create) [5, 6]).1)
          [sock] =
        ((accept_new_connection (http_server_start http_server_create) [5, 6]).1, [sock]))) :=
  reactor_connection_bound _
    (ReactorReachable.step ReactorReachable.start
      (ReactorStep.accept (http_server_start http_server_create) [5, 6]))

end Hanuman
